import Mathlib

/-!
Shallow embedding of `main.go` of `keepclean/helm-wrapper`.

The program is a version-resolving launcher for the `helm` binary:
it ensures a cache directory exists, checks whether a versioned binary
is already cached, otherwise downloads and extracts it, optionally
re-resolves the version against a cluster-side Tiller probe, and finally
executes the resolved binary, relaying output and exit status.

The filesystem is modelled as a set of existing paths (`St.files`)
together with two environment-controlled failure sets: paths on which
`os.Stat` fails with an error other than not-exist (`St.statFail`) and
paths on which `os.Open` fails with an error other than not-exist
(`St.openFail`).  File contents are irrelevant to the program except for
the downloaded archive, whose parsed content is threaded explicitly.
All external non-determinism (HTTP responses, the Kubernetes probe,
subprocess results) is supplied through an `Env` record.
-/

namespace HelmWrapper

/-- Error values produced by the embedded functions.  Each constructor
tags one distinct error source of the Go program; the payloads carry the
data the Go error message embeds. -/
inductive GoErr where
  | notExist (path : String)
  | statErr (path : String)
  | openErr (path : String)
  | ioErr (msg : String)
  | transport (msg : String)
  /-- `fmt.Errorf("couldn't download helm %s: %q", v, resp.Status)`:
  carries the version and the HTTP status text. -/
  | badStatus (v status : String)
  | gzipErr (msg : String)
  | tarErr (msg : String)
  | execFail (msg : String)
  | clusterErr (msg : String)
  deriving Repr, DecidableEq

instance {α β : Type} [DecidableEq α] [DecidableEq β] :
    DecidableEq (Except α β) := fun a b => by
  cases a with
  | error x =>
    cases b with
    | error y =>
      exact if h : x = y then .isTrue (h ▸ rfl)
        else .isFalse (fun hc => h (Except.error.inj hc))
    | ok y => exact .isFalse Except.noConfusion
  | ok x =>
    cases b with
    | error y => exact .isFalse Except.noConfusion
    | ok y =>
      exact if h : x = y then .isTrue (h ▸ rfl)
        else .isFalse (fun hc => h (Except.ok.inj hc))

/-- Filesystem state: existing paths, plus the paths on which `os.Stat`
(resp. `os.Open`) fails with an error other than "does not exist". -/
structure St where
  files : List String
  statFail : List String
  openFail : List String
  deriving Repr, DecidableEq

/-- `os.Create`: afterwards the path exists (creating or truncating). -/
def createF (st : St) (p : String) : St :=
  { st with files := if p ∈ st.files then st.files else p :: st.files }

/-- `os.Remove`: afterwards the path does not exist. -/
def removeF (st : St) (p : String) : St :=
  { st with files := st.files.filter (· != p) }

/-- Outcome of `os.Stat` on a path. -/
inductive StatResult where
  | ok
  | notExist
  | failed
  deriving Repr, DecidableEq

/-- `os.Stat`: succeeds on existing paths; on absent paths it reports
not-exist, except on the environment-designated `statFail` paths where
it fails with some other error. -/
def statFn (st : St) (p : String) : StatResult :=
  if p ∈ st.files then .ok
  else if p ∈ st.statFail then .failed
  else .notExist

/-- `${HOME}/.helm-wrapper/bin` (`os.ExpandEnv` in `main`). -/
def binDirFrom (home : String) : String := home ++ "/.helm-wrapper/bin"

/-- `fmt.Sprintf("%s/helm-%v", dir, v)`: the cached binary path. -/
def binPath (dir v : String) : String := dir ++ "/helm-" ++ v

/-- `fmt.Sprintf("%s/helm-%s.tar.gz", os.TempDir(), v)`: the temporary
archive path. -/
def tmpPath (tmpDir v : String) : String := tmpDir ++ "/helm-" ++ v ++ ".tar.gz"

/-- `dirs` (main.go:78-93): stat the path; nil error means done; a stat
error other than not-exist is returned; otherwise `os.MkdirAll` creates
it (modelled as always succeeding). -/
def dirs (path : String) (st : St) : Option GoErr × St :=
  match statFn st path with
  | .ok => (none, st)
  | .failed => (some (.statErr path), st)
  | .notExist => (none, createF st path)

/-- `checkLocal` (main.go:95-106): stat `{path}/helm-{v}`; success means
present; a stat error other than not-exist is surfaced; not-exist means
absent. -/
def checkLocal (v path : String) (st : St) : Except GoErr Bool :=
  match statFn st (binPath path v) with
  | .ok => .ok true
  | .failed => .error (.statErr (binPath path v))
  | .notExist => .ok false

/-- One tar header together with the outcome of `io.Copy` on its body
(`copyErr = some m` models a read failure while copying the entry). -/
structure TarEntry where
  name : String
  typeflag : Nat
  copyErr : Option String
  deriving Repr, DecidableEq

/-- `tar.TypeReg` = '0'. -/
def tarTypeReg : Nat := 48

/-- Parsed content of a downloaded archive: either the gzip layer is
invalid, or it yields a list of tar entries, optionally terminated by a
tar-format error (`tailErr = none` models clean EOF). -/
inductive ArchiveData where
  | gzipBad (msg : String)
  | entries (es : List TarEntry) (tailErr : Option String)
  deriving Repr, DecidableEq

/-- Does a tar entry match the one entry `unTarZip` extracts: a regular
file named `{goos}-{goarch}/helm`? -/
def isMatch (goos goarch : String) (e : TarEntry) : Bool :=
  e.typeflag == tarTypeReg && e.name == goos ++ "-" ++ goarch ++ "/helm"

/-- Does the archive contain the expected `{goos}-{goarch}/helm` regular
file entry? -/
def hasHelmEntry (goos goarch : String) : ArchiveData → Bool
  | .gzipBad _ => false
  | .entries es _ => es.any (isMatch goos goarch)

/-- The loop of `unTarZip` (main.go:151-183): for each header, skip
non-regular entries, skip entries whose name is not
`{goos}-{goarch}/helm`, and for a match `os.Create` the destination
binary and copy the bytes (a copy failure returns that error;
`os.Chmod 0755` on the just-created file is modelled as succeeding).
After the last entry, `tr.Next` yields either `io.EOF` (loop breaks,
function returns nil) or a tar error, which is returned. -/
def processEntries (v dir goos goarch : String) (tailErr : Option String)
    (st : St) : List TarEntry → Option GoErr × St
  | [] =>
    match tailErr with
    | some m => (some (.tarErr m), st)
    | none => (none, st)
  | e :: rest =>
    if e.typeflag ≠ tarTypeReg then
      processEntries v dir goos goarch tailErr st rest
    else if e.name ≠ goos ++ "-" ++ goarch ++ "/helm" then
      processEntries v dir goos goarch tailErr st rest
    else
      let st' := createF st (binPath dir v)
      match e.copyErr with
      | some m => (some (.ioErr m), st')
      | none => processEntries v dir goos goarch tailErr st' rest

/-- `unTarZip` (main.go:136-186): `os.Open` the temporary archive (an
open error is returned before the `defer os.Remove` is registered, so
the file is not removed on that path); once open succeeds, the deferred
`os.Remove` deletes the temporary file on every subsequent return, both
after a `gzip.NewReader` error and around the tar loop. -/
def unTarZip (v dir goos goarch tmpDir : String) (content : ArchiveData)
    (st : St) : Option GoErr × St :=
  let tmp := tmpPath tmpDir v
  if tmp ∈ st.openFail then (some (.openErr tmp), st)
  else if tmp ∈ st.files then
    match content with
    | .gzipBad m => (some (.gzipErr m), removeF st tmp)
    | .entries es tailErr =>
      let r := processEntries v dir goos goarch tailErr st es
      (r.1, removeF r.2 tmp)
  else (some (.notExist tmp), st)

/-- `fmt.Sprintf("https://get.helm.sh/helm-%s-%s-%s.tar.gz", v, runtime.GOOS, runtime.GOARCH)`. -/
def downloadURL (v goos goarch : String) : String :=
  "https://get.helm.sh/helm-" ++ v ++ "-" ++ goos ++ "-" ++ goarch ++ ".tar.gz"

/-- Result of one HTTP GET: either a transport error, or a response with
status code, status text, parsed body, and the outcome of streaming the
body (`copyErr`). -/
inductive HttpResult where
  | transportErr (msg : String)
  | response (statusCode : Nat) (status : String) (body : ArchiveData)
      (copyErr : Option String)
  deriving Repr, DecidableEq

/-- The archive content a response carries (dummy for transport
errors, which never reach the file-writing stage). -/
def bodyOf : HttpResult → ArchiveData
  | .transportErr _ => .gzipBad "no response"
  | .response _ _ body _ => body

/-- `download` (main.go:108-134): GET the download URL (`respAt` gives
the network's answer per URL); a transport error is returned as-is; a
non-200 status yields the distinct "couldn't download helm" error
before any file is created; otherwise `os.Create` makes the temporary
file and `io.Copy` streams the body into it (a copy failure is returned
with the partial file left in place). -/
def download (v goos goarch tmpDir : String) (respAt : String → HttpResult)
    (st : St) : Option GoErr × St :=
  match respAt (downloadURL v goos goarch) with
  | .transportErr m => (some (.transport m), st)
  | .response code status _ copyErr =>
    if code ≠ 200 then (some (.badStatus v status), st)
    else
      let st' := createF st (tmpPath tmpDir v)
      match copyErr with
      | some m => (some (.ioErr m), st')
      | none => (none, st')

/-- Outcome of the Kubernetes probe of `checkTiller` (main.go:206-237):
any failure of `os.UserHomeDir`, `clientcmd.BuildConfigFromFlags`,
`kubernetes.NewForConfig` or the pod `List` call is a probe error;
otherwise the probe yields the number of pods matching
`app=helm,name=tiller` in `kube-system`. -/
inductive TillerProbe where
  | probeErr (msg : String)
  | pods (n : Nat)
  deriving Repr, DecidableEq

/-- `checkTiller` (main.go:206-237): a probe failure is returned as an
error; zero matching pods means no Tiller; otherwise Tiller is present. -/
def checkTiller (probe : TillerProbe) : Except GoErr Bool :=
  match probe with
  | .probeErr m => .error (.clusterErr m)
  | .pods n => if n = 0 then .ok false else .ok true

/-- `cmd.CombinedOutput` for a command at path `p`: if the binary does
not exist the exec fails with empty output; otherwise the environment
supplies the combined output and exit code `r`, and a non-zero exit code
is an error. -/
def combinedOutput (st : St) (p : String) (r : String × Nat) :
    String × Option GoErr :=
  if p ∈ st.files then
    (r.1, if r.2 = 0 then none
          else some (.execFail ("exit status " ++ toString r.2)))
  else ("", some (.execFail ("fork/exec " ++ p ++ ": no such file or directory")))

/-- `serverVersion` (main.go:188-204): a `checkTiller` error is
propagated; if Tiller is absent the default version `v` is returned;
otherwise `{dir}/helm-{v} version --server --template {{.Server.SemVer}}`
is run (its combined output and exit code supplied as `r`), an exec
error is propagated, and the raw output string is returned. -/
def serverVersion (v dir : String) (probe : TillerProbe) (st : St)
    (r : String × Nat) : Except GoErr String :=
  match checkTiller probe with
  | .error e => .error e
  | .ok false => .ok v
  | .ok true =>
    let res := combinedOutput st (binPath dir v) r
    match res.2 with
    | some e => .error e
    | none => .ok res.1

/-- The ambient world of one program execution: home directory, temp
directory, platform identifiers, the HTTP response each requested
version would receive, the Tiller probe outcome, the combined
output/exit code of the `version --server` subprocess, and of the final
launch (keyed by the effective version). -/
structure Env where
  home : String
  tmpDir : String
  goos : String
  goarch : String
  /-- The HTTP answer per requested URL. -/
  respFor : String → HttpResult
  probe : TillerProbe
  versionCmd : String × Nat
  launchCmd : String → String × Nat

/-- The archive the response for version `v` carries: when `download v`
succeeded, this is exactly the content written to the temporary file. -/
def archFor (env : Env) (v : String) : ArchiveData :=
  bodyOf (env.respFor (downloadURL v env.goos env.goarch))

/-- A response is "well-stocked" when, if it is an actual HTTP response,
its archive contains the expected `{goos}-{goarch}/helm` entry.
(Transport errors carry no archive and are vacuously well-stocked.) -/
def respHasHelm (goos goarch : String) : HttpResult → Bool
  | .transportErr _ => true
  | .response _ _ body _ => hasHelmEntry goos goarch body

/-- The cache blocks of `main` (main.go:31-44 and 52-65): `checkLocal`,
and when the binary is absent, `download` then `unTarZip` on the archive
the response carried.  The boolean records whether `download` was
invoked (a network call happened).  The first error encountered is
returned (in `main` each becomes `log.Fatalln`). -/
def fetchInstall (v dir : String) (env : Env) (st : St) :
    Option GoErr × St × Bool :=
  match checkLocal v dir st with
  | .error e => (some e, st, false)
  | .ok true => (none, st, false)
  | .ok false =>
    match download v env.goos env.goarch env.tmpDir env.respFor st with
    | (some e, st') => (some e, st', true)
    | (none, st') =>
      match unTarZip v dir env.goos env.goarch env.tmpDir
          (archFor env v) st' with
      | (some e, st'') => (some e, st'', true)
      | (none, st'') => (none, st'', true)

/-- Final outcome of the program: `log.Fatalln e` (which exits with
code 1), or normal termination with the wrapper's exit code. -/
inductive RunResult where
  | fatal (e : GoErr)
  | done (exitCode : Nat)
  deriving Repr, DecidableEq

/-- The process exit code of a `RunResult` (`log.Fatalln` exits 1). -/
def exitCodeOf : RunResult → Nat
  | .fatal _ => 1
  | .done c => c

/-- Count one network call. -/
def dl (b : Bool) : Nat := if b then 1 else 0

/-- The launch step (main.go:68-76): exec the resolved binary with the
original arguments; on a `CombinedOutput` error the captured output and
the error are printed and the process exits 1, otherwise the output is
printed and the process exits 0.  Returns the wrapper's exit code. -/
def launchExit (st : St) (p : String) (r : String × Nat) : Nat :=
  match (combinedOutput st p r).2 with
  | some _ => 1
  | none => 0

/-- `main` (main.go:23-76): ensure the cache directory, install the
default version `v2.16.7` if missing, determine the server version,
install it too when different, then exec `{binDir}/helm-{server}` with
the original arguments; on a launch error the captured output and the
error are printed and the process exits 1, otherwise the output is
printed and the process exits 0.  The final `Nat` counts `download`
invocations. -/
def run (env : Env) (st : St) : RunResult × St × Nat :=
  let binDir := binDirFrom env.home
  match dirs binDir st with
  | (some e, st') => (.fatal e, st', 0)
  | (none, st') =>
    match fetchInstall "v2.16.7" binDir env st' with
    | (some e, st1, b1) => (.fatal e, st1, dl b1)
    | (none, st1, b1) =>
      match serverVersion "v2.16.7" binDir env.probe st1 env.versionCmd with
      | .error e => (.fatal e, st1, dl b1)
      | .ok server =>
        match (if "v2.16.7" ≠ server
               then fetchInstall server binDir env st1
               else (none, st1, false)) with
        | (some e, st2, b2) => (.fatal e, st2, dl b1 + dl b2)
        | (none, st2, b2) =>
          (.done (launchExit st2 (binPath binDir server) (env.launchCmd server)),
           st2, dl b1 + dl b2)

/-- Spec-side definition, for refinement comparison only.  Modelled from
the spec: "use that returned string (trimmed)", i.e. `strings.TrimSpace`:
the string with leading and trailing whitespace removed.  The Go code
has no corresponding call. -/
def trimSpec (s : String) : String :=
  ⟨((s.data.dropWhile Char.isWhitespace).reverse.dropWhile
      Char.isWhitespace).reverse⟩

/-! ## Concrete configurations used by witnesses and counterexamples -/

/-- Empty filesystem. -/
def stEmpty : St := ⟨[], [], []⟩

/-- An archive holding exactly the expected `linux-amd64/helm` entry. -/
def helmArch : ArchiveData := .entries [⟨"linux-amd64/helm", tarTypeReg, none⟩] none

/-- A fully healthy environment: every download yields the good archive,
no Tiller is deployed, and the launched binary exits 0. -/
def envGood : Env :=
  { home := "/h", tmpDir := "/tmp", goos := "linux", goarch := "amd64"
    respFor := fun _ => .response 200 "200 OK" helmArch none
    probe := .pods 0
    versionCmd := ("", 0)
    launchCmd := fun _ => ("ok", 0) }

/-- Like `envGood` but the cluster probe itself fails. -/
def envProbeFail : Env :=
  { envGood with probe := .probeErr "no kubeconfig" }

/-- Like `envGood` but the launched binary exits with code 2. -/
def envExit2 : Env :=
  { envGood with launchCmd := fun _ => ("boom", 2) }

/-- A cache that already holds the directory and the default binary. -/
def stBins : St :=
  ⟨["/h/.helm-wrapper/bin", "/h/.helm-wrapper/bin/helm-v2.16.7"], [], []⟩

/-- The filesystem left behind by a first run of `envGood` from scratch. -/
def stAfterGood : St :=
  ⟨["/h/.helm-wrapper/bin/helm-v2.16.7", "/h/.helm-wrapper/bin"], [], []⟩

/-! ## Basic lemmas about the filesystem model -/

theorem mem_createF {st : St} {p q : String} :
    q ∈ (createF st p).files ↔ q = p ∨ q ∈ st.files := by
  unfold createF
  by_cases h : p ∈ st.files
  · simp only [h, if_true]
    constructor
    · exact Or.inr
    · rintro (rfl | hq)
      · exact h
      · exact hq
  · simp [h, List.mem_cons]

theorem mem_removeF {st : St} {p q : String} :
    q ∈ (removeF st p).files ↔ q ∈ st.files ∧ q ≠ p := by
  unfold removeF
  simp [List.mem_filter, bne_iff_ne]

theorem createF_statFail (st : St) (p : String) :
    (createF st p).statFail = st.statFail := rfl

theorem createF_openFail (st : St) (p : String) :
    (createF st p).openFail = st.openFail := rfl

theorem removeF_statFail (st : St) (p : String) :
    (removeF st p).statFail = st.statFail := rfl

theorem removeF_openFail (st : St) (p : String) :
    (removeF st p).openFail = st.openFail := rfl

/-- Two strings differing at their second character differ. -/
theorem ne_of_data_get1 {p q : String} (h : p.data.get? 1 ≠ q.data.get? 1) :
    p ≠ q :=
  fun he => h (by rw [he])

theorem statFn_ok_iff {st : St} {p : String} :
    statFn st p = .ok ↔ p ∈ st.files := by
  by_cases h1 : p ∈ st.files
  · simp [statFn, h1]
  · by_cases h2 : p ∈ st.statFail <;> simp [statFn, h1, h2]

theorem checkLocal_ok_true_iff {v dir : String} {st : St} :
    checkLocal v dir st = .ok true ↔ binPath dir v ∈ st.files := by
  unfold checkLocal
  cases h : statFn st (binPath dir v) <;>
    simp_all [statFn_ok_iff.symm, h]

theorem checkLocal_of_mem {v dir : String} {st : St}
    (h : binPath dir v ∈ st.files) : checkLocal v dir st = .ok true :=
  checkLocal_ok_true_iff.mpr h

/-! ## Lemmas about the extraction loop -/

theorem isMatch_true_iff {goos goarch : String} {e : TarEntry} :
    isMatch goos goarch e = true ↔
      e.typeflag = tarTypeReg ∧ e.name = goos ++ "-" ++ goarch ++ "/helm" := by
  simp [isMatch]

theorem processEntries_no_match (v dir goos goarch : String) (st : St)
    (es : List TarEntry)
    (h : ∀ e ∈ es, isMatch goos goarch e = false) :
    processEntries v dir goos goarch none st es = (none, st) := by
  induction es generalizing st with
  | nil => rfl
  | cons e rest ih =>
    have he : isMatch goos goarch e = false := h e (List.mem_cons_self e rest)
    have hrest : ∀ e ∈ rest, isMatch goos goarch e = false :=
      fun x hx => h x (List.mem_cons_of_mem e hx)
    unfold processEntries
    by_cases h1 : e.typeflag = tarTypeReg
    · have h2 : e.name ≠ goos ++ "-" ++ goarch ++ "/helm" := by
        intro hn
        simp [isMatch, h1, hn] at he
      simp only [h1, ne_eq, not_true_eq_false, if_false, h2, not_false_eq_true,
        if_true]
      exact ih st hrest
    · simp only [ne_eq, h1, not_false_eq_true, if_true]
      exact ih st hrest

theorem processEntries_mono {v dir goos goarch : String}
    {tailErr : Option String} {st : St} {es : List TarEntry} {p : String}
    (h : p ∈ st.files) :
    p ∈ (processEntries v dir goos goarch tailErr st es).2.files := by
  induction es generalizing st with
  | nil => cases tailErr <;> simpa [processEntries] using h
  | cons e rest ih =>
    unfold processEntries
    by_cases h1 : e.typeflag = tarTypeReg
    · by_cases h2 : e.name = goos ++ "-" ++ goarch ++ "/helm"
      · simp only [h1, ne_eq, not_true_eq_false, if_false, h2]
        cases hc : e.copyErr with
        | some m =>
          simpa [mem_createF] using Or.inr h
        | none =>
          exact ih (mem_createF.mpr (Or.inr h))
      · simp only [h1, ne_eq, not_true_eq_false, if_false, h2, not_false_eq_true,
          if_true]
        exact ih h
    · simp only [ne_eq, h1, not_false_eq_true, if_true]
      exact ih h

theorem mem_processEntries {v dir goos goarch : String}
    {tailErr : Option String} {st : St} {es : List TarEntry} {p : String}
    (h : p ∈ (processEntries v dir goos goarch tailErr st es).2.files) :
    p ∈ st.files ∨ p = binPath dir v := by
  induction es generalizing st with
  | nil =>
    cases tailErr <;> simp [processEntries] at h <;> exact Or.inl h
  | cons e rest ih =>
    unfold processEntries at h
    by_cases h1 : e.typeflag = tarTypeReg
    · by_cases h2 : e.name = goos ++ "-" ++ goarch ++ "/helm"
      · simp only [h1, ne_eq, not_true_eq_false, if_false, h2] at h
        cases hc : e.copyErr with
        | some m =>
          rw [hc] at h
          rcases mem_createF.mp h with hp | hp
          · exact Or.inr hp
          · exact Or.inl hp
        | none =>
          rw [hc] at h
          rcases ih h with hp | hp
          · rcases mem_createF.mp hp with hq | hq
            · exact Or.inr hq
            · exact Or.inl hq
          · exact Or.inr hp
      · simp only [h1, ne_eq, not_true_eq_false, if_false, h2, not_false_eq_true,
          if_true] at h
        exact ih h
    · simp only [ne_eq, h1, not_false_eq_true, if_true] at h
      exact ih h

theorem binPath_mem_processEntries {v dir goos goarch : String}
    {tailErr : Option String} {st : St} {es : List TarEntry}
    (h : ∃ e ∈ es, isMatch goos goarch e = true) :
    binPath dir v ∈ (processEntries v dir goos goarch tailErr st es).2.files := by
  induction es generalizing st with
  | nil => simp at h
  | cons e rest ih =>
    unfold processEntries
    by_cases hm : isMatch goos goarch e = true
    · obtain ⟨h1, h2⟩ := isMatch_true_iff.mp hm
      simp only [h1, ne_eq, not_true_eq_false, if_false, h2]
      cases hc : e.copyErr with
      | some m => simp [mem_createF]
      | none => exact processEntries_mono (mem_createF.mpr (Or.inl rfl))
    · have hrest : ∃ x ∈ rest, isMatch goos goarch x = true := by
        rcases h with ⟨x, hx, hxm⟩
        rcases List.mem_cons.mp hx with rfl | hx'
        · exact absurd hxm hm
        · exact ⟨x, hx', hxm⟩
      by_cases h1 : e.typeflag = tarTypeReg
      · have h2 : e.name ≠ goos ++ "-" ++ goarch ++ "/helm" := by
          intro hn
          exact hm (isMatch_true_iff.mpr ⟨h1, hn⟩)
        simp only [h1, ne_eq, not_true_eq_false, if_false, h2, not_false_eq_true,
          if_true]
        exact ih hrest
      · simp only [ne_eq, h1, not_false_eq_true, if_true]
        exact ih hrest

theorem processEntries_statFail (v dir goos goarch : String)
    (tailErr : Option String) (st : St) (es : List TarEntry) :
    (processEntries v dir goos goarch tailErr st es).2.statFail = st.statFail := by
  induction es generalizing st with
  | nil => cases tailErr <;> rfl
  | cons e rest ih =>
    unfold processEntries
    by_cases h1 : e.typeflag = tarTypeReg
    · by_cases h2 : e.name = goos ++ "-" ++ goarch ++ "/helm"
      · simp only [h1, ne_eq, not_true_eq_false, if_false, h2]
        cases e.copyErr with
        | some m => rfl
        | none => exact ih (createF st (binPath dir v))
      · simp only [h1, ne_eq, not_true_eq_false, if_false, h2, not_false_eq_true,
          if_true]
        exact ih st
    · simp only [ne_eq, h1, not_false_eq_true, if_true]
      exact ih st

theorem processEntries_openFail (v dir goos goarch : String)
    (tailErr : Option String) (st : St) (es : List TarEntry) :
    (processEntries v dir goos goarch tailErr st es).2.openFail = st.openFail := by
  induction es generalizing st with
  | nil => cases tailErr <;> rfl
  | cons e rest ih =>
    unfold processEntries
    by_cases h1 : e.typeflag = tarTypeReg
    · by_cases h2 : e.name = goos ++ "-" ++ goarch ++ "/helm"
      · simp only [h1, ne_eq, not_true_eq_false, if_false, h2]
        cases e.copyErr with
        | some m => rfl
        | none => exact ih (createF st (binPath dir v))
      · simp only [h1, ne_eq, not_true_eq_false, if_false, h2, not_false_eq_true,
          if_true]
        exact ih st
    · simp only [ne_eq, h1, not_false_eq_true, if_true]
      exact ih st

/-! ## Inversion lemmas for the pipeline steps -/

theorem unTarZip_ok_inv {v dir goos goarch tmpDir : String}
    {content : ArchiveData} {st st' : St}
    (h : unTarZip v dir goos goarch tmpDir content st = (none, st')) :
    tmpPath tmpDir v ∉ st.openFail ∧ tmpPath tmpDir v ∈ st.files ∧
    ∃ es tailErr, content = .entries es tailErr ∧
      (processEntries v dir goos goarch tailErr st es).1 = none ∧
      st' = removeF (processEntries v dir goos goarch tailErr st es).2
        (tmpPath tmpDir v) := by
  unfold unTarZip at h
  by_cases h1 : tmpPath tmpDir v ∈ st.openFail
  · simp [h1] at h
  · rw [if_neg h1] at h
    by_cases h2 : tmpPath tmpDir v ∈ st.files
    · rw [if_pos h2] at h
      cases content with
      | gzipBad m => simp at h
      | entries es tailErr =>
        simp only [Prod.mk.injEq] at h
        exact ⟨h1, h2, es, tailErr, rfl, h.1, h.2.symm⟩
    · rw [if_neg h2] at h
      simp at h

theorem download_ok_inv {v goos goarch tmpDir : String}
    {respAt : String → HttpResult} {st st' : St}
    (h : download v goos goarch tmpDir respAt st = (none, st')) :
    ∃ status body,
      respAt (downloadURL v goos goarch) = .response 200 status body none ∧
      st' = createF st (tmpPath tmpDir v) := by
  unfold download at h
  cases hr : respAt (downloadURL v goos goarch) with
  | transportErr m => rw [hr] at h; simp at h
  | response code status body copyErr =>
    rw [hr] at h
    by_cases hc : code = 200
    · subst hc
      cases copyErr with
      | some m => simp at h
      | none =>
        refine ⟨status, body, rfl, ?_⟩
        simp only [ne_eq, not_true_eq_false, if_false, Prod.mk.injEq] at h
        exact h.2.symm
    · simp [hc] at h

theorem serverVersion_ok_mono {v dir : String} {probe : TillerProbe}
    {st st₂ : St} {r : String × Nat} {sv : String}
    (h : serverVersion v dir probe st r = .ok sv)
    (hsub : binPath dir v ∈ st.files → binPath dir v ∈ st₂.files) :
    serverVersion v dir probe st₂ r = .ok sv := by
  unfold serverVersion at h ⊢
  cases probe with
  | probeErr m => simp [checkTiller] at h
  | pods n =>
    by_cases hn : n = 0
    · simpa [checkTiller, hn] using h
    · simp only [checkTiller, hn, if_false] at h ⊢
      unfold combinedOutput at h ⊢
      by_cases hm : binPath dir v ∈ st.files
      · rw [if_pos (hsub hm)]
        rw [if_pos hm] at h
        by_cases hz : r.2 = 0
        · simpa [hz] using h
        · simp [hz] at h
      · rw [if_neg hm] at h
        simp at h

theorem fetchInstall_of_mem {v dir : String} (env : Env) {st : St}
    (h : binPath dir v ∈ st.files) :
    fetchInstall v dir env st = (none, st, false) := by
  simp [fetchInstall, checkLocal_of_mem h]

theorem fetchInstall_ok_inv {v dir : String} {env : Env} {st st' : St}
    {b : Bool}
    (h : fetchInstall v dir env st = (none, st', b))
    (hgood : respHasHelm env.goos env.goarch
      (env.respFor (downloadURL v env.goos env.goarch)) = true)
    (hne : binPath dir v ≠ tmpPath env.tmpDir v) :
    binPath dir v ∈ st'.files ∧
    (∀ q ∈ st.files, q ≠ tmpPath env.tmpDir v → q ∈ st'.files) ∧
    st'.statFail = st.statFail ∧ st'.openFail = st.openFail := by
  unfold fetchInstall at h
  split at h
  case h_1 e heq => simp at h
  case h_2 heq =>
    simp only [Prod.mk.injEq, true_and] at h
    obtain ⟨h2, -⟩ := h
    subst h2
    exact ⟨checkLocal_ok_true_iff.mp heq, fun q hq _ => hq, rfl, rfl⟩
  case h_3 heq =>
    split at h
    case h_1 e st1 heq2 => simp at h
    case h_2 st1 heq2 =>
      split at h
      case h_1 e st2 heq3 => simp at h
      case h_2 st2 heq3 =>
        simp only [Prod.mk.injEq, true_and] at h
        obtain ⟨h2, -⟩ := h
        subst h2
        obtain ⟨status, body, hresp, hst1⟩ := download_ok_inv heq2
        obtain ⟨hopen, hmem, es, tailErr, hcontent, hpe, hst2⟩ :=
          unTarZip_ok_inv heq3
        have hentry : hasHelmEntry env.goos env.goarch (archFor env v) = true := by
          rw [hresp] at hgood
          rw [archFor, hresp]
          exact hgood
        rw [hcontent] at hentry
        have hex : ∃ e ∈ es, isMatch env.goos env.goarch e = true := by
          simpa [hasHelmEntry, List.any_eq_true] using hentry
        subst hst2
        refine ⟨?_, ?_, ?_, ?_⟩
        · exact mem_removeF.mpr ⟨binPath_mem_processEntries hex, hne⟩
        · intro q hq hqne
          refine mem_removeF.mpr ⟨processEntries_mono ?_, hqne⟩
          rw [hst1]
          exact mem_createF.mpr (Or.inr hq)
        · rw [removeF_statFail, processEntries_statFail, hst1, createF_statFail]
        · rw [removeF_openFail, processEntries_openFail, hst1, createF_openFail]

theorem dirs_ok_inv {p : String} {st st' : St}
    (h : dirs p st = (none, st')) :
    p ∈ st'.files ∧ (∀ q ∈ st.files, q ∈ st'.files) ∧
    st'.statFail = st.statFail ∧ st'.openFail = st.openFail := by
  unfold dirs at h
  split at h
  case h_1 heq =>
    simp only [Prod.mk.injEq, true_and] at h
    subst h
    exact ⟨statFn_ok_iff.mp heq, fun q hq => hq, rfl, rfl⟩
  case h_2 heq => simp at h
  case h_3 heq =>
    simp only [Prod.mk.injEq, true_and] at h
    subst h
    exact ⟨mem_createF.mpr (Or.inl rfl),
      fun q hq => mem_createF.mpr (Or.inr hq), rfl, rfl⟩

theorem dirs_of_mem {p : String} {st : St} (h : p ∈ st.files) :
    dirs p st = (none, st) := by
  simp [dirs, statFn, h]

/-! ## Claims -/

/-- C9: the Local Resolver (`checkLocal`) returns `false` only when the
versioned binary truly does not exist: it answers `(true, nil)` exactly
when `os.Stat` succeeds, `(false, nil)` exactly when stat reports
not-exist, and for every other stat error it surfaces that error
instead of returning `(false, nil)`. -/
theorem c9_checkLocal_stat_faithful (v dir : String) (st : St) :
    (checkLocal v dir st = .ok true ↔ statFn st (binPath dir v) = .ok) ∧
    (checkLocal v dir st = .ok false ↔
      statFn st (binPath dir v) = .notExist) ∧
    (statFn st (binPath dir v) = .failed →
      checkLocal v dir st = .error (.statErr (binPath dir v))) := by
  unfold checkLocal
  cases h : statFn st (binPath dir v) <;> simp [h]

theorem c9_witness :
    checkLocal "v1" "/b" ⟨[], ["/b/helm-v1"], []⟩ =
      .error (.statErr "/b/helm-v1") :=
  (c9_checkLocal_stat_faithful "v1" "/b" ⟨[], ["/b/helm-v1"], []⟩).2.2 (by decide)

/-- C5: for every HTTP response whose status is not 200, `download`
fails with the "couldn't download helm" error carrying the version and
the status text — a constructor distinct from the transport error — and
the filesystem is returned unchanged, so no cache file and no temporary
file is created. -/
theorem c5_download_bad_status (v goos goarch tmpDir : String)
    (respAt : String → HttpResult) (st : St) (code : Nat)
    (status : String) (body : ArchiveData) (copyErr : Option String)
    (hresp : respAt (downloadURL v goos goarch) =
      .response code status body copyErr)
    (hcode : code ≠ 200) :
    download v goos goarch tmpDir respAt st =
      (some (.badStatus v status), st) ∧
    ∀ m, GoErr.badStatus v status ≠ .transport m := by
  constructor
  · simp [download, hresp, hcode]
  · intro m hm
    cases hm

theorem c5_witness :
    download "v1" "linux" "amd64" "/tmp"
        (fun _ => .response 404 "404 Not Found" (.gzipBad "") none)
        stEmpty = (some (.badStatus "v1" "404 Not Found"), stEmpty) ∧
    ∀ m, GoErr.badStatus "v1" "404 Not Found" ≠ .transport m :=
  c5_download_bad_status "v1" "linux" "amd64" "/tmp"
    (fun _ => .response 404 "404 Not Found" (.gzipBad "") none)
    stEmpty 404 "404 Not Found" (.gzipBad "") none rfl (by decide)

/-- C4: for every archive whose entries contain no regular file named
`{goos}-{goarch}/helm`, extraction completes without error and creates
no output file: the resulting filesystem is exactly the original minus
the temporary archive, and in particular the cache path for that
version is absent whenever it was absent before. -/
theorem c4_unTarZip_no_entry (v dir goos goarch tmpDir : String)
    (es : List TarEntry) (st : St)
    (hnone : ∀ e ∈ es, isMatch goos goarch e = false)
    (hopen : tmpPath tmpDir v ∉ st.openFail)
    (hmem : tmpPath tmpDir v ∈ st.files) :
    unTarZip v dir goos goarch tmpDir (.entries es none) st =
      (none, removeF st (tmpPath tmpDir v)) ∧
    (binPath dir v ∉ st.files →
      binPath dir v ∉
        (unTarZip v dir goos goarch tmpDir (.entries es none) st).2.files) := by
  have hpe := processEntries_no_match v dir goos goarch st es hnone
  have heq : unTarZip v dir goos goarch tmpDir (.entries es none) st =
      (none, removeF st (tmpPath tmpDir v)) := by
    simp [unTarZip, hopen, hmem, hpe]
  refine ⟨heq, fun hb => ?_⟩
  rw [heq]
  exact fun hc => hb (mem_removeF.mp hc).1

theorem c4_witness :
    unTarZip "v1" "/b" "linux" "amd64" "/tmp"
        (.entries [⟨"linux-amd64/other", tarTypeReg, none⟩,
                   ⟨"linux-amd64/helm", 53, none⟩] none)
        ⟨["/tmp/helm-v1.tar.gz"], [], []⟩ =
      (none, removeF ⟨["/tmp/helm-v1.tar.gz"], [], []⟩
        (tmpPath "/tmp" "v1")) ∧
    (binPath "/b" "v1" ∉ (⟨["/tmp/helm-v1.tar.gz"], [], []⟩ : St).files →
      binPath "/b" "v1" ∉
        (unTarZip "v1" "/b" "linux" "amd64" "/tmp"
          (.entries [⟨"linux-amd64/other", tarTypeReg, none⟩,
                     ⟨"linux-amd64/helm", 53, none⟩] none)
          ⟨["/tmp/helm-v1.tar.gz"], [], []⟩).2.files) :=
  c4_unTarZip_no_entry "v1" "/b" "linux" "amd64" "/tmp"
    [⟨"linux-amd64/other", tarTypeReg, none⟩, ⟨"linux-amd64/helm", 53, none⟩]
    ⟨["/tmp/helm-v1.tar.gz"], [], []⟩ (by decide) (by decide) (by decide)

/-- C10: the only path extraction can add to the filesystem is
`{dir}/helm-{v}`, built from the function's own arguments: for every
archive content, every path present afterwards was either present
before or is exactly that path — tar entry names are only compared
against the expected internal path and never used to build an output
path, so no crafted entry name causes a write outside the cache
directory. -/
theorem c10_unTarZip_no_traversal (v dir goos goarch tmpDir : String)
    (content : ArchiveData) (st : St) (p : String)
    (h : p ∈ (unTarZip v dir goos goarch tmpDir content st).2.files) :
    p ∈ st.files ∨ p = binPath dir v := by
  unfold unTarZip at h
  by_cases h1 : tmpPath tmpDir v ∈ st.openFail
  · rw [if_pos h1] at h
    exact Or.inl h
  · rw [if_neg h1] at h
    by_cases h2 : tmpPath tmpDir v ∈ st.files
    · rw [if_pos h2] at h
      cases content with
      | gzipBad m => exact Or.inl (mem_removeF.mp h).1
      | entries es tailErr => exact mem_processEntries (mem_removeF.mp h).1
    · rw [if_neg h2] at h
      exact Or.inl h

theorem c10_witness :
    "/b/helm-v1" ∈ (⟨["/tmp/helm-v1.tar.gz"], [], []⟩ : St).files ∨
      "/b/helm-v1" = binPath "/b" "v1" :=
  c10_unTarZip_no_traversal "v1" "/b" "linux" "amd64" "/tmp"
    (.entries [⟨"../../../etc/passwd", tarTypeReg, none⟩,
               ⟨"linux-amd64/helm", tarTypeReg, none⟩] none)
    ⟨["/tmp/helm-v1.tar.gz"], [], []⟩ "/b/helm-v1" (by decide)

/-- C7 (claim as stated is false): when `os.Open` on the temporary
archive fails with an error other than not-exist — the file exists but
cannot be opened — `unTarZip` returns that error *without* deleting the
file: the `defer os.Remove` (main.go:141) is registered only after the
open-error return (main.go:138-140), so this exit path leaves the
temporary archive in place. -/
theorem c7_counterexample :
    (unTarZip "v1" "/b" "linux" "amd64" "/tmp" (.gzipBad "x")
        ⟨["/tmp/helm-v1.tar.gz"], [], ["/tmp/helm-v1.tar.gz"]⟩).1 =
      some (.openErr "/tmp/helm-v1.tar.gz") ∧
    "/tmp/helm-v1.tar.gz" ∈
      (unTarZip "v1" "/b" "linux" "amd64" "/tmp" (.gzipBad "x")
        ⟨["/tmp/helm-v1.tar.gz"], [], ["/tmp/helm-v1.tar.gz"]⟩).2.files := by
  decide

/-- C7 (amended): provided opening the temporary archive does not fail
with a non-not-exist error, then on every exit path of `unTarZip` —
success, decompression error, archive-format error, I/O error during
the loop, or not-exist on open — the temporary archive file no longer
exists when the function returns. -/
theorem c7_tmp_removed (v dir goos goarch tmpDir : String)
    (content : ArchiveData) (st : St)
    (hopen : tmpPath tmpDir v ∉ st.openFail) :
    tmpPath tmpDir v ∉
      (unTarZip v dir goos goarch tmpDir content st).2.files := by
  unfold unTarZip
  rw [if_neg hopen]
  by_cases h2 : tmpPath tmpDir v ∈ st.files
  · rw [if_pos h2]
    cases content with
    | gzipBad m => exact fun hc => (mem_removeF.mp hc).2 rfl
    | entries es tailErr => exact fun hc => (mem_removeF.mp hc).2 rfl
  · rw [if_neg h2]
    exact h2

theorem c7_witness :
    tmpPath "/tmp" "v1" ∉
      (unTarZip "v1" "/b" "linux" "amd64" "/tmp" (.gzipBad "x")
        ⟨["/tmp/helm-v1.tar.gz"], [], []⟩).2.files :=
  c7_tmp_removed "v1" "/b" "linux" "amd64" "/tmp" (.gzipBad "x")
    ⟨["/tmp/helm-v1.tar.gz"], [], []⟩ (by decide)

/-- C2 (claim as stated is false): `serverVersion` returns the raw
subprocess output with *no* whitespace trimming (main.go:203 returns
`string(out)` directly); an output carrying a trailing newline is used
verbatim as the effective version and differs from its trimmed form. -/
theorem c2_counterexample :
    serverVersion "v2.16.7" "/b" (.pods 1)
        ⟨["/b/helm-v2.16.7"], [], []⟩ ("v3.0.0\n", 0) = .ok "v3.0.0\n" ∧
    trimSpec "v3.0.0\n" = "v3.0.0" ∧
    serverVersion "v2.16.7" "/b" (.pods 1)
        ⟨["/b/helm-v2.16.7"], [], []⟩ ("v3.0.0\n", 0) ≠
      .ok (trimSpec "v3.0.0\n") := by
  decide

/-- C2 (amended): when the legacy component is detected and the
subprocess succeeds, the effective version is the subprocess output
exactly as returned — untrimmed. -/
theorem c2_serverVersion_raw (v dir out : String) (n : Nat) (st : St)
    (hbin : binPath dir v ∈ st.files) :
    serverVersion v dir (.pods (n + 1)) st (out, 0) = .ok out := by
  simp [serverVersion, checkTiller, combinedOutput, hbin]

theorem c2_witness :
    serverVersion "v2.16.7" "/b" (.pods (0 + 1))
        ⟨["/b/helm-v2.16.7"], [], []⟩ ("v3.0.0", 0) = .ok "v3.0.0" :=
  c2_serverVersion_raw "v2.16.7" "/b" "v3.0.0" 0
    ⟨["/b/helm-v2.16.7"], [], []⟩ (by decide)

/-- C1 (claim as stated is false): when the cluster probe itself fails,
`serverVersion` does not fall back to the default version: it returns
the probe error (main.go:189-192), which `main` turns into a fatal exit
(main.go:46-49). -/
theorem c1_counterexample :
    serverVersion "v2.16.7" "/b"
        (.probeErr "no kubeconfig") stEmpty ("", 0) =
      .error (.clusterErr "no kubeconfig") ∧
    serverVersion "v2.16.7" "/b"
        (.probeErr "no kubeconfig") stEmpty ("", 0) ≠ .ok "v2.16.7" := by
  decide

/-- C1 (amended): when the cluster probe query fails for any reason,
`serverVersion` propagates the error instead of returning the default
version, and the whole program terminates fatally rather than
proceeding. -/
theorem c1_probe_error_fatal :
    (∀ (v dir m : String) (st : St) (r : String × Nat),
      serverVersion v dir (.probeErr m) st r = .error (.clusterErr m)) ∧
    (∀ (env : Env) (st : St) (m : String), env.probe = .probeErr m →
      ∃ e, (run env st).1 = .fatal e) := by
  have hsv : ∀ (v dir m : String) (st : St) (r : String × Nat),
      serverVersion v dir (.probeErr m) st r = .error (.clusterErr m) :=
    fun _ _ _ _ _ => rfl
  refine ⟨hsv, ?_⟩
  intro env st m hp
  cases hr : (run env st).1 with
  | fatal e => exact ⟨e, rfl⟩
  | done c =>
    exfalso
    rw [run] at hr
    split at hr
    case h_1 => simp at hr
    case h_2 =>
      split at hr
      case h_1 => simp at hr
      case h_2 =>
        split at hr
        case h_1 => simp at hr
        case h_2 server heq =>
          rw [hp, hsv] at heq
          cases heq

theorem c1_witness :
    ∃ e, (run envProbeFail stEmpty).1 = .fatal e :=
  c1_probe_error_fatal.2 envProbeFail stEmpty "no kubeconfig" rfl

/-- C3 (claim as stated is false): a download and an extraction can both
return without error and still install nothing — when the archive
contains no `{goos}-{goarch}/helm` entry the extraction is a silent
no-op (main.go:150-185), and the Local Resolver still reports the
binary absent afterwards. -/
theorem c3_counterexample :
    download "v9" "linux" "amd64" "/tmp"
        (fun _ => .response 200 "200 OK" (.entries [] none) none)
        ⟨["/b"], [], []⟩ =
      (none, ⟨["/tmp/helm-v9.tar.gz", "/b"], [], []⟩) ∧
    unTarZip "v9" "/b" "linux" "amd64" "/tmp"
        (bodyOf ((fun (_ : String) => HttpResult.response 200 "200 OK"
          (.entries [] none) none) (downloadURL "v9" "linux" "amd64")))
        ⟨["/tmp/helm-v9.tar.gz", "/b"], [], []⟩ =
      (none, ⟨["/b"], [], []⟩) ∧
    checkLocal "v9" "/b" ⟨["/b"], [], []⟩ = .ok false ∧
    checkLocal "v9" "/b" ⟨["/b"], [], []⟩ ≠ .ok true := by
  decide

/-- C3 (amended): after a download and an extraction that both return
without error *and* whose archive actually contains the expected
`{goos}-{goarch}/helm` regular-file entry (with the cache path for the
version distinct from its temporary archive path), the Local Resolver
on the same cache directory reports the binary present. -/
theorem c3_checkLocal_after_install (v dir goos goarch tmpDir : String)
    (respAt : String → HttpResult) (st st1 st2 : St)
    (_hdl : download v goos goarch tmpDir respAt st = (none, st1))
    (hutz : unTarZip v dir goos goarch tmpDir
      (bodyOf (respAt (downloadURL v goos goarch))) st1 = (none, st2))
    (hentry : hasHelmEntry goos goarch
      (bodyOf (respAt (downloadURL v goos goarch))) = true)
    (hne : binPath dir v ≠ tmpPath tmpDir v) :
    checkLocal v dir st2 = .ok true := by
  obtain ⟨hopen, hmem, es, tailErr, hcontent, hpe, hst2⟩ := unTarZip_ok_inv hutz
  rw [hcontent] at hentry
  have hex : ∃ e ∈ es, isMatch goos goarch e = true := by
    simpa [hasHelmEntry, List.any_eq_true] using hentry
  subst hst2
  exact checkLocal_of_mem
    (mem_removeF.mpr ⟨binPath_mem_processEntries hex, hne⟩)

theorem c3_witness :
    checkLocal "v1" "/b" ⟨["/b/helm-v1"], [], []⟩ = .ok true :=
  c3_checkLocal_after_install "v1" "/b" "linux" "amd64" "/tmp"
    (fun _ => .response 200 "200 OK" helmArch none)
    ⟨[], [], []⟩ ⟨["/tmp/helm-v1.tar.gz"], [], []⟩ ⟨["/b/helm-v1"], [], []⟩
    (by decide) (by decide) (by decide) (by decide)

/-- C6 (claim as stated is false): the wrapper does not mirror the
wrapped binary's exit code — when the launched binary exits with code 2
the wrapper exits with code 1 (`os.Exit(1)` at main.go:72). -/
theorem c6_counterexample :
    (run envExit2 stBins).1 = .done 1 ∧
    (envExit2.launchCmd "v2.16.7").2 = 2 ∧ (1 : Nat) ≠ 2 := by
  decide

/-- C6 (amended): the wrapper's exit code collapses the wrapped binary's
exit status to zero/non-zero rather than mirroring it: when the binary
is present and exits 0 the wrapper exits 0, when it fails with any
non-zero code the wrapper exits 1, every bootstrap failure exits 1
(`log.Fatalln`), and consequently the wrapper's exit code is always 0
or 1. -/
theorem c6_exit_code_collapsed :
    (∀ (st : St) (p out : String) (n : Nat), p ∈ st.files →
      launchExit st p (out, n) = if n = 0 then 0 else 1) ∧
    (∀ (env : Env) (st : St),
      exitCodeOf (run env st).1 = 0 ∨ exitCodeOf (run env st).1 = 1) ∧
    (∀ (env : Env) (st : St) (e : GoErr), (run env st).1 = .fatal e →
      exitCodeOf (run env st).1 = 1) := by
  refine ⟨?_, ?_, ?_⟩
  · intro st p out n hp
    by_cases hn : n = 0 <;> simp [launchExit, combinedOutput, hp, hn]
  · intro env st
    have hl : ∀ (s : St) (p : String) (r : String × Nat),
        launchExit s p r = 0 ∨ launchExit s p r = 1 := by
      intro s p r
      unfold launchExit
      split
      · exact Or.inr rfl
      · exact Or.inl rfl
    rw [run]
    split
    · exact Or.inr rfl
    · split
      · exact Or.inr rfl
      · split
        · exact Or.inr rfl
        · split
          · exact Or.inr rfl
          · exact hl _ _ _
  · intro env st e h
    rw [h]
    rfl

theorem c6_witness :
    launchExit stBins "/h/.helm-wrapper/bin/helm-v2.16.7" ("boom", 2) =
      (if 2 = 0 then 0 else 1) ∧
    exitCodeOf (run envProbeFail stEmpty).1 = 1 :=
  ⟨c6_exit_code_collapsed.1 stBins "/h/.helm-wrapper/bin/helm-v2.16.7"
      "boom" 2 (by decide),
   c6_exit_code_collapsed.2.2 envProbeFail stEmpty
      (.clusterErr "no kubeconfig") (by decide)⟩

/-- A run in which the cache directory, the default binary and the
effective-version binary are all already present performs no download. -/
theorem run_cached (env : Env) (st : St) (server : String)
    (hbd : binDirFrom env.home ∈ st.files)
    (hmv : binPath (binDirFrom env.home) "v2.16.7" ∈ st.files)
    (hsv : serverVersion "v2.16.7" (binDirFrom env.home) env.probe st
      env.versionCmd = .ok server)
    (hms : binPath (binDirFrom env.home) server ∈ st.files) :
    (run env st).2.2 = 0 := by
  have e1 : dirs (binDirFrom env.home) st = (none, st) := dirs_of_mem hbd
  have e2 : fetchInstall "v2.16.7" (binDirFrom env.home) env st =
      (none, st, false) := fetchInstall_of_mem env hmv
  have e4 : (if ("v2.16.7" : String) ≠ server
      then fetchInstall server (binDirFrom env.home) env st
      else (none, st, false)) = (none, st, false) := by
    split
    · exact fetchInstall_of_mem env hms
    · rfl
  rw [run]
  simp only [e1, e2, hsv, e4]
  rfl

/-- C8: the bootstrap is idempotent with respect to the network: if one
run completed its pipeline (result `done`) in an environment whose HTTP
responses carry archives containing the expected helm entry and whose
temporary archive paths collide neither with the cache directory nor
with any cached binary path, then a second run started from the
resulting filesystem finds the default binary already present (the
Local Resolver answers true) and performs zero download calls. -/
theorem c8_second_run_no_download (env : Env) (st st2 : St) (c d1 : Nat)
    (Hgood : ∀ u, respHasHelm env.goos env.goarch (env.respFor u) = true)
    (Hd1 : ∀ s, tmpPath env.tmpDir s ≠ binDirFrom env.home)
    (Hd2 : ∀ s t, tmpPath env.tmpDir s ≠ binPath (binDirFrom env.home) t)
    (H1 : run env st = (.done c, st2, d1)) :
    checkLocal "v2.16.7" (binDirFrom env.home) st2 = .ok true ∧
    (run env st2).2.2 = 0 := by
  rw [run] at H1
  split at H1
  case h_1 => simp at H1
  case h_2 st0 heq0 =>
    split at H1
    case h_1 => simp at H1
    case h_2 st1 b1 heq1 =>
      split at H1
      case h_1 => simp at H1
      case h_2 server heqs =>
        split at H1
        case h_1 => simp at H1
        case h_2 st2' b2 heq2 =>
          simp only [Prod.mk.injEq] at H1
          obtain ⟨-, hst, -⟩ := H1
          subst hst
          obtain ⟨hbd0, hpres0, -, -⟩ := dirs_ok_inv heq0
          obtain ⟨hmv1, hpres1, -, -⟩ := fetchInstall_ok_inv heq1 (Hgood _)
            ((Hd2 "v2.16.7" "v2.16.7").symm)
          have hbd1 : binDirFrom env.home ∈ st1.files :=
            hpres1 _ hbd0 ((Hd1 "v2.16.7").symm)
          by_cases hvs : ("v2.16.7" : String) = server
          · subst hvs
            rw [if_neg (by simp)] at heq2
            simp only [Prod.mk.injEq, true_and] at heq2
            obtain ⟨hst12, -⟩ := heq2
            subst hst12
            exact ⟨checkLocal_of_mem hmv1,
              run_cached env st1 "v2.16.7" hbd1 hmv1
                (serverVersion_ok_mono heqs (fun h => h)) hmv1⟩
          · rw [if_pos hvs] at heq2
            obtain ⟨hms2, hpres2, -, -⟩ := fetchInstall_ok_inv heq2 (Hgood _)
              ((Hd2 server server).symm)
            have hmv2 : binPath (binDirFrom env.home) "v2.16.7" ∈ st2'.files :=
              hpres2 _ hmv1 ((Hd2 server "v2.16.7").symm)
            have hbd2 : binDirFrom env.home ∈ st2'.files :=
              hpres2 _ hbd1 ((Hd1 server).symm)
            exact ⟨checkLocal_of_mem hmv2,
              run_cached env st2' server hbd2 hmv2
                (serverVersion_ok_mono heqs (fun _ => hmv2)) hms2⟩

theorem c8_witness :
    checkLocal "v2.16.7" (binDirFrom "/h") stAfterGood = .ok true ∧
    (run envGood stAfterGood).2.2 = 0 :=
  c8_second_run_no_download envGood stEmpty stAfterGood 0 1
    (fun _ => rfl)
    (fun _ => ne_of_data_get1 (show (some 't' : Option Char) ≠ some 'h' by decide))
    (fun _ _ => ne_of_data_get1 (show (some 't' : Option Char) ≠ some 'h' by decide))
    (by decide)

end HelmWrapper
